import Mathlib

/-!
Shallow embedding of the emacscfg/emacsctl application-state core
(`state/state.go`) and of the environment-resolution algorithm used by the
`open` command (`app/app.go`, function `openEmacs`).

Go maps `map[string]T` are modelled as association lists `List (String × T)`
with first-match lookup; `delete` removes every binding of the key, and the
add operations only insert after an absence check, so the representation is
faithful for every reachable behaviour the claims mention.  A Go function
returning `error` becomes `Except Err` (`.ok`/`.error`); a Go slice-index
panic becomes `Option` with `none` for the panic.
-/

namespace Emacscfg

/-- Lookup in an association-list map, first match wins (Go map lookup). -/
def mapLookup {α : Type} (m : List (String × α)) (k : String) : Option α :=
  match m with
  | [] => none
  | (k', v) :: rest => if k' = k then some v else mapLookup rest k

/-- Membership test, Go `_, exists := m[k]`. -/
def mapContains {α : Type} (m : List (String × α)) (k : String) : Bool :=
  (mapLookup m k).isSome

/-- Insertion of a fresh key (the operations only insert after checking
absence, so appending is Go map assignment). -/
def mapInsert {α : Type} (m : List (String × α)) (k : String) (v : α) :
    List (String × α) :=
  m ++ [(k, v)]

/-- Deletion, Go `delete(m, k)`. -/
def mapErase {α : Type} (m : List (String × α)) (k : String) :
    List (String × α) :=
  m.filter (fun p => p.1 ≠ k)

/-- Structure `EmacsCommand` from state/state.go: an invocable binary plus fixed
leading arguments. -/
structure EmacsCommand where
  binPath : String
  binArgs : List String
  description : String
deriving DecidableEq, Repr

/-- Structure `EmacsConfig` from state/state.go: a configuration directory. -/
structure EmacsConfig where
  initDir : String
  description : String
deriving DecidableEq, Repr

/-- Structure `Environment` from state/state.go: a named pairing of a command name and
a config name. -/
structure Environment where
  commandName : String
  configName : String
  description : String
deriving DecidableEq, Repr

/-- Structure `State` from state/state.go: the aggregate root. -/
structure State where
  commands : List (String × EmacsCommand)
  configs : List (String × EmacsConfig)
  environments : List (String × Environment)
  context : String
deriving DecidableEq, Repr

/-- The typed errors of package errors that the state core and the resolver
return. -/
inductive Err where
  | commandExists (name : String)
  | commandNotFound (name : String)
  | configExists (name : String)
  | configNotFound (name : String)
  | environmentExists (name : String)
  | environmentNotFound (name : String)
  | noContext
deriving DecidableEq, Repr

/-- Constant `config.DefaultEmacsCommandLine` from config/config.go. -/
def DefaultEmacsCommandLine : String := "emacs"

/-- Function `New` from state/state.go.  `config.DefaultEmacsConfigDir` is computed
from the user's home directory at run time, so it is a parameter here. -/
def State.new (defaultEmacsConfigDir : String) : State :=
  { commands :=
      [("default",
        { binPath := DefaultEmacsCommandLine
          binArgs := []
          description := "Default emacs application" })]
    configs :=
      [("default",
        { initDir := defaultEmacsConfigDir
          description := "Default emacs configuration" })]
    environments :=
      [("default",
        { commandName := "default"
          configName := "default"
          description := "default emacs environment" })]
    context := "default" }

/-- Method `CommandExists` from state/state.go. -/
def State.commandExists (s : State) (name : String) : Bool :=
  mapContains s.commands name

/-- Method `AddCommand` from state/state.go.  The source indexes `commandLine[0]`
and slices `commandLine[1:]` with no length guard; on an empty slice that is
an out-of-range panic, modelled as `none`.  The duplicate-name check runs
before the indexing. -/
def State.addCommand (s : State) (name : String) (commandLine : List String)
    (description : String) : Option (Except Err State) :=
  if mapContains s.commands name then
    some (.error (.commandExists name))
  else
    match commandLine with
    | [] => none
    | binPath :: binArgs =>
      some (.ok { s with
        commands := mapInsert s.commands name
          { binPath := binPath, binArgs := binArgs, description := description } })

/-- Method `RemoveCommand` from state/state.go, transcribed exactly as written: the
existence check and the delete both address `s.Configs`, not `s.Commands`. -/
def State.removeCommand (s : State) (name : String) : Except Err State :=
  if mapContains s.configs name then
    .ok { s with configs := mapErase s.configs name, context := "" }
  else
    .error (.commandNotFound name)

/-- Method `ConfigExists` from state/state.go. -/
def State.configExists (s : State) (name : String) : Bool :=
  mapContains s.configs name

/-- Method `AddConfig` from state/state.go. -/
def State.addConfig (s : State) (name path description : String) :
    Except Err State :=
  if mapContains s.configs name then
    .error (.configExists name)
  else
    .ok { s with
      configs := mapInsert s.configs name
        { initDir := path, description := description }
      context := name }

/-- Method `RemoveConfig` from state/state.go. -/
def State.removeConfig (s : State) (name : String) : Except Err State :=
  if mapContains s.configs name then
    .ok { s with configs := mapErase s.configs name, context := "" }
  else
    .error (.configNotFound name)

/-- Method `EnvironmentExists` from state/state.go. -/
def State.environmentExists (s : State) (name : String) : Bool :=
  mapContains s.environments name

/-- Method `AddEnvironment` from state/state.go, transcribed exactly as written:
the command and config existence checks look up `name` (the environment's
name), not the `command` and `config` parameters, and the errors carry
`name`. -/
def State.addEnvironment (s : State) (name command config description : String) :
    Except Err State :=
  if mapContains s.environments name then
    .error (.environmentExists name)
  else if !mapContains s.commands name then
    .error (.commandNotFound name)
  else if !mapContains s.configs name then
    .error (.configNotFound name)
  else
    .ok { s with
      environments := mapInsert s.environments name
        { commandName := command, configName := config, description := description }
      context := name }

/-- Method `RemoveEnvironment` from state/state.go. -/
def State.removeEnvironment (s : State) (name : String) : Except Err State :=
  if mapContains s.environments name then
    .ok { s with environments := mapErase s.environments name, context := "" }
  else
    .error (.environmentNotFound name)

/-- Method `CommandLine` of `EmacsCommand` from state/state.go: the argument vector
`[BinPath] ++ BinArgs ++ ["--init-directory", initDir]`. -/
def EmacsCommand.commandLine (c : EmacsCommand) (initDir : String) : List String :=
  c.binPath :: (c.binArgs ++ ["--init-directory", initDir])

/-- The resolution core of `openEmacs` from app/app.go (lines 675-720):
pick the explicit `--context` flag value when non-empty, else the stored
context; fail `NoContextError` when both are empty; then follow the
environment → command → config chain and build the command line.
`openEmacs` never writes to the state and never calls `Save`, so the
resolver is a pure function of the state. -/
def resolve (s : State) (explicitContext : String) : Except Err (List String) :=
  let context := if explicitContext = "" then s.context else explicitContext
  if context = "" then
    .error .noContext
  else
    match mapLookup s.environments context with
    | none => .error (.environmentNotFound context)
    | some env =>
      match mapLookup s.commands env.commandName with
      | none => .error (.commandNotFound env.commandName)
      | some cmd =>
        match mapLookup s.configs env.configName with
        | none => .error (.configNotFound env.configName)
        | some cfg => .ok (cmd.commandLine cfg.initDir)

/-! ### Persistence (`Save`/`Load` from state/state.go)

`Save` marshals the `State` with `encoding/json` using the struct tags
`bin_path`, `bin_args`, `description`, `init_dir`, `command_name`,
`config_name`, `commands`, `configs`, `environments`, `context`; `Load`
unmarshals the same document, and returns `New()` when the file is absent.
The JSON values these types produce are modelled by `JValue`; the encoders
and decoders below reproduce `encoding/json`'s behaviour on exactly these
tagged struct and map types (a missing or null field decodes to the Go zero
value; a field of the wrong shape is a decode error). -/

/-- The fragment of JSON the persisted document uses. -/
inductive JValue where
  | null : JValue
  | str : String → JValue
  | arr : List JValue → JValue
  | obj : List (String × JValue) → JValue

/-- Marshal a string slice. -/
def encodeStrList (xs : List String) : JValue :=
  .arr (xs.map .str)

/-- Marshal an `EmacsCommand` (tags from state/state.go). -/
def encodeCommand (c : EmacsCommand) : JValue :=
  .obj [("bin_path", .str c.binPath),
        ("bin_args", encodeStrList c.binArgs),
        ("description", .str c.description)]

/-- Marshal an `EmacsConfig`. -/
def encodeConfig (c : EmacsConfig) : JValue :=
  .obj [("init_dir", .str c.initDir),
        ("description", .str c.description)]

/-- Marshal an `Environment`. -/
def encodeEnvironment (e : Environment) : JValue :=
  .obj [("command_name", .str e.commandName),
        ("config_name", .str e.configName),
        ("description", .str e.description)]

/-- Marshal a `map[string]T` as a JSON object, one field per entry. -/
def encodeMap {α : Type} (enc : α → JValue) (m : List (String × α)) : JValue :=
  .obj (m.map (fun p => (p.1, enc p.2)))

/-- Marshal the whole `State` (the document of `Save`). -/
def encodeState (s : State) : JValue :=
  .obj [("commands", encodeMap encodeCommand s.commands),
        ("configs", encodeMap encodeConfig s.configs),
        ("environments", encodeMap encodeEnvironment s.environments),
        ("context", .str s.context)]

/-- Unmarshal a JSON value into a Go string: only a string literal fits
(null leaves the zero value, handled at the field level). -/
def decodeStr (v : JValue) : Option String :=
  match v with
  | .str x => some x
  | _ => none

/-- Unmarshal a list of JSON values into a `[]string`. -/
def decodeStrItems (vs : List JValue) : Option (List String) :=
  match vs with
  | [] => some []
  | v :: rest =>
    match decodeStr v, decodeStrItems rest with
    | some x, some xs => some (x :: xs)
    | _, _ => none

/-- A string-typed struct field: absent or null decodes to `""`. -/
def decodeStrField (fields : List (String × JValue)) (k : String) : Option String :=
  match mapLookup fields k with
  | none => some ""
  | some .null => some ""
  | some v => decodeStr v

/-- A `[]string`-typed struct field: absent or null decodes to nil. -/
def decodeStrListField (fields : List (String × JValue)) (k : String) :
    Option (List String) :=
  match mapLookup fields k with
  | none => some []
  | some .null => some []
  | some (.arr vs) => decodeStrItems vs
  | some _ => none

/-- Unmarshal an `EmacsCommand`. -/
def decodeCommand (v : JValue) : Option EmacsCommand :=
  match v with
  | .obj fields =>
    match decodeStrField fields "bin_path",
          decodeStrListField fields "bin_args",
          decodeStrField fields "description" with
    | some bp, some ba, some d =>
      some { binPath := bp, binArgs := ba, description := d }
    | _, _, _ => none
  | _ => none

/-- Unmarshal an `EmacsConfig`. -/
def decodeConfig (v : JValue) : Option EmacsConfig :=
  match v with
  | .obj fields =>
    match decodeStrField fields "init_dir",
          decodeStrField fields "description" with
    | some dir, some d => some { initDir := dir, description := d }
    | _, _ => none
  | _ => none

/-- Unmarshal an `Environment`. -/
def decodeEnvironment (v : JValue) : Option Environment :=
  match v with
  | .obj fields =>
    match decodeStrField fields "command_name",
          decodeStrField fields "config_name",
          decodeStrField fields "description" with
    | some c, some f, some d =>
      some { commandName := c, configName := f, description := d }
    | _, _, _ => none
  | _ => none

/-- Unmarshal the entries of a JSON object into map entries. -/
def decodeEntries {α : Type} (dec : JValue → Option α)
    (fields : List (String × JValue)) : Option (List (String × α)) :=
  match fields with
  | [] => some []
  | (k, v) :: rest =>
    match dec v, decodeEntries dec rest with
    | some a, some m => some ((k, a) :: m)
    | _, _ => none

/-- A map-typed struct field: absent or null decodes to the nil map. -/
def decodeMapField {α : Type} (dec : JValue → Option α)
    (fields : List (String × JValue)) (k : String) : Option (List (String × α)) :=
  match mapLookup fields k with
  | none => some []
  | some .null => some []
  | some (.obj entries) => decodeEntries dec entries
  | some _ => none

/-- Unmarshal the whole `State` (the document of `Load`). -/
def decodeState (v : JValue) : Option State :=
  match v with
  | .obj fields =>
    match decodeMapField decodeCommand fields "commands",
          decodeMapField decodeConfig fields "configs",
          decodeMapField decodeEnvironment fields "environments",
          decodeStrField fields "context" with
    | some cmds, some cfgs, some envs, some ctx =>
      some { commands := cmds, configs := cfgs, environments := envs, context := ctx }
    | _, _, _, _ => none
  | _ => none

/-- Function `Load` from state/state.go.  `file = none` models `os.Stat` reporting
the file absent, in which case `New()` is returned with no error; otherwise
the file's JSON document is decoded, `none` standing for a decode error. -/
def load (defaultEmacsConfigDir : String) (file : Option JValue) : Option State :=
  match file with
  | none => some (State.new defaultEmacsConfigDir)
  | some v => decodeState v

/-! ### Concrete stores used by the claim theorems and witnesses -/

/-- A store holding a command `"c"` and a config `"f"` and no environment. -/
def stateC1 : State :=
  { commands := [("c", { binPath := "emacs", binArgs := [], description := "d" })]
    configs := [("f", { initDir := "/dir", description := "d" })]
    environments := []
    context := "" }

/-- A store holding exactly the command `"x"` and no configs. -/
def stateC2 : State :=
  { commands := [("x", { binPath := "emacs", binArgs := [], description := "d" })]
    configs := []
    environments := []
    context := "active" }

/-- A store holding exactly the config `"x"` and no commands. -/
def stateC2b : State :=
  { commands := []
    configs := [("x", { initDir := "/dir", description := "d" })]
    environments := []
    context := "active" }

/-- The resolution-scenario store of the spec (section 8). -/
def stateC3 : State :=
  { commands := [("default", { binPath := "emacs", binArgs := [], description := "d" })]
    configs := [("default", { initDir := "/home/u/.emacs.d", description := "d" })]
    environments :=
      [("default",
        { commandName := "default", configName := "default", description := "d" })]
    context := "default" }

/-- A store whose active environment references the deleted command `"gone"`. -/
def stateC5 : State :=
  { commands := []
    configs := [("default", { initDir := "/home/u/.emacs.d", description := "d" })]
    environments :=
      [("default",
        { commandName := "gone", configName := "default", description := "d" })]
    context := "default" }

/-- A store with two configs, so that both buggy `RemoveCommand` and
`RemoveConfig` succeed on distinct names. -/
def stateC6 : State :=
  { commands := []
    configs := [("a", { initDir := "/a", description := "d" }),
                ("b", { initDir := "/b", description := "d" })]
    environments := []
    context := "active" }

/-- Result of `stateC6.removeCommand "a"`. -/
def stateC6a : State :=
  { commands := []
    configs := [("b", { initDir := "/b", description := "d" })]
    environments := []
    context := "" }

/-- Result of `stateC6.removeConfig "b"`. -/
def stateC6b : State :=
  { commands := []
    configs := [("a", { initDir := "/a", description := "d" })]
    environments := []
    context := "" }

/-- A store on which all three add operations succeed (the name `"z"` is
both a command and a config, as the buggy `AddEnvironment` checks demand). -/
def stateC7 : State :=
  { commands := [("z", { binPath := "emacs", binArgs := [], description := "d" })]
    configs := [("z", { initDir := "/z", description := "d" })]
    environments := []
    context := "orig" }

/-- Result of `stateC7.addConfig "w" "/w" "d"`. -/
def stateC7a : State :=
  { commands := [("z", { binPath := "emacs", binArgs := [], description := "d" })]
    configs := [("z", { initDir := "/z", description := "d" }),
                ("w", { initDir := "/w", description := "d" })]
    environments := []
    context := "w" }

/-- Result of `stateC7.addEnvironment "z" "z" "z" "d"`. -/
def stateC7b : State :=
  { commands := [("z", { binPath := "emacs", binArgs := [], description := "d" })]
    configs := [("z", { initDir := "/z", description := "d" })]
    environments :=
      [("z", { commandName := "z", configName := "z", description := "d" })]
    context := "z" }

/-- Result of `stateC7.addCommand "v" ["emacs", "-q"] "d"`. -/
def stateC7c : State :=
  { commands := [("z", { binPath := "emacs", binArgs := [], description := "d" }),
                 ("v", { binPath := "emacs", binArgs := ["-q"], description := "d" })]
    configs := [("z", { initDir := "/z", description := "d" })]
    environments := []
    context := "orig" }

/-! ### Claim theorems -/

/-- C1: the claim says `addEnvironment(name, commandName, configurationName, …)`
validates `commandName` against the Commands map and `configurationName`
against the Configurations map.  The code instead looks up `name` in both
maps: on `stateC1`, where the command `"c"` and the config `"f"` both exist
and no environment `"e"` exists, `addEnvironment "e" "c" "f" "d"` must
succeed per the claim, yet the code fails with `CommandNotFoundError{Name:
"e"}`. -/
theorem c1_addEnvironment_checks_wrong_keys :
    stateC1.addEnvironment "e" "c" "f" "d" = .error (.commandNotFound "e") ∧
    mapContains stateC1.commands "c" = true ∧
    mapContains stateC1.configs "f" = true ∧
    mapContains stateC1.environments "e" = false :=
  ⟨rfl, rfl, rfl, rfl⟩

/-- C2: the claim says `removeCommand(name)` fails iff `name` is absent from
the Commands map and otherwise deletes the Commands entry.  The code checks
and deletes the Configs map instead: on `stateC2` (command `"x"` present,
no configs) it fails with `CommandNotFoundError`, and on `stateC2b` (config
`"x"` present, no commands) it succeeds and deletes the config. -/
theorem c2_removeCommand_checks_configs :
    stateC2.removeCommand "x" = .error (.commandNotFound "x") ∧
    mapContains stateC2.commands "x" = true ∧
    stateC2b.removeCommand "x" =
      .ok { stateC2b with configs := [], context := "" } ∧
    mapContains stateC2b.commands "x" = false :=
  ⟨rfl, rfl, rfl, rfl⟩

/-- C3: whenever the lookup chain is intact — the selected context is
non-empty and names an environment whose command and config names are both
present — `resolve` returns `[binaryPath] ++ arguments ++
["--init-directory", directoryPath]`; and on the spec's concrete scenario
store it returns `["emacs", "--init-directory", "/home/u/.emacs.d"]`.
`resolve` is a pure function of the store, so no mutation occurs. -/
theorem c3_resolve_builds_vector (s : State) (explicitContext : String)
    (env : Environment) (cmd : EmacsCommand) (cfg : EmacsConfig)
    (hctx : (if explicitContext = "" then s.context else explicitContext) ≠ "")
    (henv : mapLookup s.environments
      (if explicitContext = "" then s.context else explicitContext) = some env)
    (hcmd : mapLookup s.commands env.commandName = some cmd)
    (hcfg : mapLookup s.configs env.configName = some cfg) :
    resolve s explicitContext =
      .ok ([cmd.binPath] ++ cmd.binArgs ++ ["--init-directory", cfg.initDir]) ∧
    resolve stateC3 "" = .ok ["emacs", "--init-directory", "/home/u/.emacs.d"] := by
  constructor
  · simp [resolve, hctx, henv, hcmd, hcfg, EmacsCommand.commandLine]
  · rfl

/-- C3 witness: the general part of `c3_resolve_builds_vector` applied to the
spec's scenario store. -/
theorem c3_resolve_builds_vector_witness :
    resolve stateC3 "" =
      .ok (["emacs"] ++ [] ++ ["--init-directory", "/home/u/.emacs.d"]) :=
  (c3_resolve_builds_vector stateC3 ""
    { commandName := "default", configName := "default", description := "d" }
    { binPath := "emacs", binArgs := [], description := "d" }
    { initDir := "/home/u/.emacs.d", description := "d" }
    (by decide) rfl rfl rfl).1

/-- C4: resolution selects the explicit override when non-empty (the stored
context is then irrelevant), falls back to the stored context when the
override is empty, and fails with `NoContextError` when both are empty, for
every choice of the three maps (so no map is consulted). -/
theorem c4_resolve_context_choice :
    (∀ cmds cfgs envs,
      resolve { commands := cmds, configs := cfgs, environments := envs,
                context := "" } "" = .error .noContext) ∧
    (∀ (s : State) (explicitContext other : String), explicitContext ≠ "" →
      resolve s explicitContext =
        resolve { s with context := other } explicitContext) ∧
    (∀ s : State, s.context ≠ "" → resolve s "" = resolve s s.context) := by
  refine ⟨fun cmds cfgs envs => rfl, fun s e other h => ?_, fun s h => ?_⟩
  · simp [resolve, h]
  · simp [resolve, h]

/-- C4 witness: each part of `c4_resolve_context_choice` at a concrete
store. -/
theorem c4_resolve_context_choice_witness :
    resolve { commands := [], configs := [], environments := [],
              context := "" } "" = .error .noContext ∧
    resolve stateC3 "x" = resolve { stateC3 with context := "other" } "x" ∧
    resolve stateC3 "" = resolve stateC3 stateC3.context :=
  ⟨c4_resolve_context_choice.1 [] [] [],
   c4_resolve_context_choice.2.1 stateC3 "x" "other" (by decide),
   c4_resolve_context_choice.2.2 stateC3 (by decide)⟩

/-- C5: when the selected context names an environment whose `commandName`
is not a key of the commands map, resolution fails with
`CommandNotFoundError{Name: commandName}` — no fallback; `resolve` is pure,
so the store is not mutated. -/
theorem c5_resolve_dangling_command (s : State) (explicitContext : String)
    (env : Environment)
    (hctx : (if explicitContext = "" then s.context else explicitContext) ≠ "")
    (henv : mapLookup s.environments
      (if explicitContext = "" then s.context else explicitContext) = some env)
    (hcmd : mapLookup s.commands env.commandName = none) :
    resolve s explicitContext = .error (.commandNotFound env.commandName) := by
  simp [resolve, hctx, henv, hcmd]

/-- C5 witness: `c5_resolve_dangling_command` on the store whose environment
references the deleted command `"gone"`. -/
theorem c5_resolve_dangling_command_witness :
    resolve stateC5 "" =
      .error (.commandNotFound
        (Environment.commandName
          { commandName := "gone", configName := "default", description := "d" })) :=
  c5_resolve_dangling_command stateC5 ""
    { commandName := "gone", configName := "default", description := "d" }
    (by decide) rfl rfl

/-- C6: whenever `removeCommand` succeeds and whenever `removeConfig`
succeeds, the resulting state's context is the empty string — the reset is
unconditional on the success path, whatever was removed. -/
theorem c6_remove_clears_context (s t u : State) (n m : String)
    (h₁ : s.removeCommand n = .ok t) (h₂ : s.removeConfig m = .ok u) :
    t.context = "" ∧ u.context = "" := by
  constructor
  · unfold State.removeCommand at h₁
    split at h₁
    · cases h₁; rfl
    · cases h₁
  · unfold State.removeConfig at h₂
    split at h₂
    · cases h₂; rfl
    · cases h₂

/-- C6 witness: `c6_remove_clears_context` on `stateC6`, where
`removeCommand "a"` and `removeConfig "b"` both succeed. -/
theorem c6_remove_clears_context_witness :
    stateC6a.context = "" ∧ stateC6b.context = "" :=
  c6_remove_clears_context stateC6 stateC6a stateC6b "a" "b" rfl rfl

/-- C7: three independent per-operation facts, each for every store: a
successful `addConfig name …` leaves the context equal to `name`; a
successful `addEnvironment name …` leaves the context equal to `name`; a
successful `addCommand` leaves the context, the configs map and the
environments map of the store unchanged. -/
theorem c7_add_context_effects :
    (∀ (s t : State) (n p d : String),
      s.addConfig n p d = .ok t → t.context = n) ∧
    (∀ (s t : State) (n c f d : String),
      s.addEnvironment n c f d = .ok t → t.context = n) ∧
    (∀ (s t : State) (n d : String) (cl : List String),
      s.addCommand n cl d = some (.ok t) →
      t.context = s.context ∧ t.configs = s.configs ∧
      t.environments = s.environments) := by
  refine ⟨fun s t n p d h => ?_, fun s t n c f d h => ?_,
          fun s t n d cl h => ?_⟩
  · unfold State.addConfig at h
    split at h
    · cases h
    · cases h; rfl
  · unfold State.addEnvironment at h
    split at h
    · cases h
    · split at h
      · cases h
      · split at h
        · cases h
        · cases h; rfl
  · unfold State.addCommand at h
    split at h
    · simp at h
    · split at h
      · cases h
      · simp only [Option.some.injEq] at h
        cases h
        exact ⟨rfl, rfl, rfl⟩

/-- C7 witness: each part of `c7_add_context_effects` applied on `stateC7`,
discharging its success hypothesis independently of the other two. -/
theorem c7_add_context_effects_witness :
    stateC7a.context = "w" ∧ stateC7b.context = "z" ∧
    (stateC7c.context = stateC7.context ∧
     stateC7c.configs = stateC7.configs ∧
     stateC7c.environments = stateC7.environments) :=
  ⟨c7_add_context_effects.1 stateC7 stateC7a "w" "/w" "d" rfl,
   c7_add_context_effects.2.1 stateC7 stateC7b "z" "z" "z" "d" rfl,
   c7_add_context_effects.2.2 stateC7 stateC7c "v" "d" ["emacs", "-q"] rfl⟩

/-- C10 counterexample: the claim says `addCommand` unconditionally indexes
the first element of the vector, so an empty vector is always an
out-of-range panic.  With an empty vector and a name that is already a
Command key, the duplicate check returns first: the result is a returned
error value (`some …`), not the panic (`none`). -/
theorem c10_addCommand_empty_vector_no_panic :
    stateC2.addCommand "x" [] "d" = some (.error (.commandExists "x")) :=
  rfl

/-- C10 (amended): `addCommand` indexes the vector only after the
duplicate-name check passes: for a name not already a Command key it stores
`binPath` = head and `binArgs` = tail of a non-empty vector, and panics
(index out of range) on an empty one; for a name already present it returns
`AlreadyExists` without indexing. -/
theorem c10_addCommand_indexing (s : State)
    (name description binPath : String) (binArgs commandLine : List String) :
    (mapContains s.commands name = false →
      s.addCommand name (binPath :: binArgs) description =
        some (.ok { s with
          commands := mapInsert s.commands name
            { binPath := binPath, binArgs := binArgs,
              description := description } }) ∧
      s.addCommand name [] description = none) ∧
    (mapContains s.commands name = true →
      s.addCommand name commandLine description =
        some (.error (.commandExists name))) := by
  constructor
  · intro h
    constructor <;> simp [State.addCommand, h]
  · intro h
    simp [State.addCommand, h]

/-- C10 witness: `c10_addCommand_indexing` on `stateC2` with the fresh name
`"y"` and the taken name `"x"`. -/
theorem c10_addCommand_indexing_witness :
    (stateC2.addCommand "y" ("emacs" :: ["-nw"]) "d" =
        some (.ok { stateC2 with
          commands := mapInsert stateC2.commands "y"
            { binPath := "emacs", binArgs := ["-nw"],
              description := "d" } }) ∧
      stateC2.addCommand "y" [] "d" = none) ∧
    stateC2.addCommand "x" ["emacs"] "d" =
      some (.error (.commandExists "x")) :=
  ⟨(c10_addCommand_indexing stateC2 "y" "d" "emacs" ["-nw"] ["emacs"]).1 rfl,
   (c10_addCommand_indexing stateC2 "x" "d" "emacs" [] ["emacs"]).2 rfl⟩

/-! ### Round-trip lemmas for the persisted document -/

/-- Decoding an encoded string slice recovers it. -/
theorem decodeStrItems_encode (xs : List String) :
    decodeStrItems (xs.map .str) = some xs := by
  induction xs with
  | nil => rfl
  | cons x rest ih => simp [decodeStrItems, decodeStr, ih]

/-- Decoding an encoded `EmacsCommand` recovers it. -/
theorem decodeCommand_encode (c : EmacsCommand) :
    decodeCommand (encodeCommand c) = some c := by
  simp [decodeCommand, encodeCommand, decodeStrField, decodeStrListField,
        mapLookup, decodeStr, encodeStrList, decodeStrItems_encode]

/-- Decoding an encoded `EmacsConfig` recovers it. -/
theorem decodeConfig_encode (c : EmacsConfig) :
    decodeConfig (encodeConfig c) = some c := by
  simp [decodeConfig, encodeConfig, decodeStrField, mapLookup, decodeStr]

/-- Decoding an encoded `Environment` recovers it. -/
theorem decodeEnvironment_encode (e : Environment) :
    decodeEnvironment (encodeEnvironment e) = some e := by
  simp [decodeEnvironment, encodeEnvironment, decodeStrField, mapLookup,
        decodeStr]

/-- Decoding the encoded entries of a map recovers them, given a faithful
element decoder. -/
theorem decodeEntries_encode {α : Type} (dec : JValue → Option α)
    (enc : α → JValue) (h : ∀ a, dec (enc a) = some a)
    (m : List (String × α)) :
    decodeEntries dec (m.map (fun p => (p.1, enc p.2))) = some m := by
  induction m with
  | nil => rfl
  | cons p rest ih => simp [decodeEntries, h, ih]

/-- C8: serializing an application state to the persisted JSON document and
deserializing the result yields the original aggregate, field for field. -/
theorem c8_state_roundtrip (s : State) :
    decodeState (encodeState s) = some s := by
  simp [decodeState, encodeState, decodeMapField, decodeStrField, mapLookup,
        encodeMap, decodeStr,
        decodeEntries_encode decodeCommand encodeCommand decodeCommand_encode,
        decodeEntries_encode decodeConfig encodeConfig decodeConfig_encode,
        decodeEntries_encode decodeEnvironment encodeEnvironment
          decodeEnvironment_encode]

/-- C9: loading from a path where no state file exists succeeds and yields
the default-populated state: a `"default"` Command for the default editor
invocation (`config.DefaultEmacsCommandLine`, i.e. `"emacs"`, with no
arguments), a `"default"` Configuration for the default configuration
directory, a `"default"` Environment pairing them, and context
`"default"`. -/
theorem c9_load_absent_default (dir : String) :
    load dir none = some (State.new dir) ∧
    State.new dir =
      { commands :=
          [("default",
            { binPath := "emacs", binArgs := [],
              description := "Default emacs application" })]
        configs :=
          [("default",
            { initDir := dir, description := "Default emacs configuration" })]
        environments :=
          [("default",
            { commandName := "default", configName := "default",
              description := "default emacs environment" })]
        context := "default" } :=
  ⟨rfl, rfl⟩

end Emacscfg
